import Mathlib

/-!
Verification of `merton` (`src/merton/binance_downloader.py`), a Binance
historical-data downloader.  The embedding models:

* Python `datetime.date` values (proleptic Gregorian calendar dates with
  `MINYEAR = 1 ≤ year ≤ MAXYEAR = 9999`), `timedelta(days=1)` stepping —
  which raises `OverflowError` when stepping past `date.max`
  (9999-12-31) — and date comparison, as used by the day loop of
  `download_data`;
* `BinanceDataDownloader.get_url`, the pure URL builder;
* `BinanceDataDownloader.download_data`, the fetch-decode-aggregate
  pipeline, parameterised by an environment (a fixed function from URL to
  per-day remote outcome) standing for the HTTP transport plus the
  zip/CSV decoding libraries whose internals the program delegates.

Uncaught exceptions are modelled by `Except.error`: both the
`OverflowError` raised by the post-iteration date increment (which sits
outside the per-day `try`/`except`) and the `ValueError` raised by the
12-name column assignment surface this way.  Per-day dataframes are
rectangular tables of optional integers (a `none` entry stands for a
missing value / NaN produced by the tabular library).
-/

namespace Merton

/-! ### Calendar dates (model of Python `datetime.date`) -/

/-- Gregorian leap-year test, as in Python's `calendar.isleap`. -/
def isLeapYear (y : Nat) : Bool :=
  (y % 4 == 0 && y % 100 != 0) || (y % 400 == 0)

/-- Number of days in month `m` of year `y` (months are 1-based). -/
def daysInMonth (y m : Nat) : Nat :=
  if m = 2 then (if isLeapYear y then 29 else 28)
  else if m = 4 ∨ m = 6 ∨ m = 9 ∨ m = 11 then 30
  else 31

theorem daysInMonth_pos (y m : Nat) : 1 ≤ daysInMonth y m := by
  unfold daysInMonth
  split
  · split <;> omega
  · split <;> omega

/-- Days in year `y` strictly before month `m` (so `daysBeforeMonth y 1 = 0`). -/
def daysBeforeMonth (y : Nat) : Nat → Nat
  | 0 => 0
  | m + 1 => daysBeforeMonth y m + (if m = 0 then 0 else daysInMonth y m)

/-- Days strictly before January 1 of year `y` in the proleptic Gregorian
calendar (so `daysBeforeYear 1 = 0`); the summands are ordered so that the
truncated `Nat` subtraction never cuts below zero. -/
def daysBeforeYear (y : Nat) : Nat :=
  365 * (y - 1) + (y - 1) / 4 + (y - 1) / 400 - (y - 1) / 100

/-- A Python `datetime.date`: a valid proleptic Gregorian calendar date.
Python's `date` constructor enforces exactly these bounds, including
`MINYEAR = 1 ≤ year` and `year ≤ MAXYEAR = 9999`. -/
structure Date where
  year : Nat
  month : Nat
  day : Nat
  year_pos : 1 ≤ year
  year_le : year ≤ 9999
  month_pos : 1 ≤ month
  month_le : month ≤ 12
  day_pos : 1 ≤ day
  day_le : day ≤ daysInMonth year month

/-- Python `date.toordinal()`: the 1-based day number of the date in the
proleptic Gregorian calendar (January 1 of year 1 is day 1;
`date.max.toordinal() = 3652059`). -/
def toOrdinal (d : Date) : Nat :=
  daysBeforeYear d.year + daysBeforeMonth d.year d.month + d.day

/-- Python date comparison `a <= b`; on valid dates this is exactly
ordinal comparison. -/
def dateLe (a b : Date) : Prop := toOrdinal a ≤ toOrdinal b

instance (a b : Date) : Decidable (dateLe a b) :=
  inferInstanceAs (Decidable (toOrdinal a ≤ toOrdinal b))

/-- Python `d + timedelta(days=1)`: the next calendar day, or `none` when
the addition raises `OverflowError` — which happens exactly at
`date.max = 9999-12-31`, where the incremented year would exceed
`MAXYEAR`. -/
def nextDay (d : Date) : Option Date :=
  if h : d.day < daysInMonth d.year d.month then
    some { d with day := d.day + 1, day_pos := by omega, day_le := h }
  else if h2 : d.month < 12 then
    some { year := d.year, month := d.month + 1, day := 1,
           year_pos := d.year_pos, year_le := d.year_le,
           month_pos := by omega, month_le := by omega,
           day_pos := Nat.le_refl 1, day_le := daysInMonth_pos _ _ }
  else if h3 : d.year < 9999 then
    some { year := d.year + 1, month := 1, day := 1,
           year_pos := by omega, year_le := by omega,
           month_pos := Nat.le_refl 1, month_le := by omega,
           day_pos := Nat.le_refl 1, day_le := daysInMonth_pos _ _ }
  else none

theorem daysBeforeMonth_succ (y k : Nat) :
    daysBeforeMonth y (k + 2) = daysBeforeMonth y (k + 1) + daysInMonth y (k + 1) := by
  simp [daysBeforeMonth]

theorem daysBeforeMonth_twelve (y : Nat) :
    daysBeforeMonth y 12 = 306 + daysInMonth y 2 := by
  show daysBeforeMonth y (11 + 1) = _
  simp only [daysBeforeMonth, daysInMonth]
  norm_num
  split <;> omega

theorem daysBeforeMonth_thirteen (y : Nat) :
    daysBeforeMonth y 13 = 337 + daysInMonth y 2 := by
  have h := daysBeforeMonth_succ y 11
  norm_num at h
  rw [h, daysBeforeMonth_twelve]
  have h31 : daysInMonth y 12 = 31 := rfl
  omega

theorem daysBeforeMonth_le_succ (y m : Nat) :
    daysBeforeMonth y m ≤ daysBeforeMonth y (m + 1) := by
  cases m with
  | zero => simp [daysBeforeMonth]
  | succ k =>
    rw [daysBeforeMonth_succ]
    exact Nat.le_add_right _ _

theorem daysBeforeMonth_mono (y : Nat) {a b : Nat} (h : a ≤ b) :
    daysBeforeMonth y a ≤ daysBeforeMonth y b := by
  induction b with
  | zero =>
    have ha : a = 0 := by omega
    subst ha
    exact Nat.le_refl _
  | succ k ih =>
    by_cases hab : a ≤ k
    · exact Nat.le_trans (ih hab) (daysBeforeMonth_le_succ y k)
    · have ha : a = k + 1 := by omega
      subst ha
      exact Nat.le_refl _

set_option maxHeartbeats 1000000 in
theorem daysBeforeYear_succ (y : Nat) (hy : 1 ≤ y) :
    daysBeforeYear (y + 1) =
      daysBeforeYear y + 337 + daysInMonth y 2 := by
  have hiff : isLeapYear y = true ↔ ((y % 4 = 0 ∧ y % 100 ≠ 0) ∨ y % 400 = 0) := by
    simp [isLeapYear]
  have hdim : daysInMonth y 2 = if isLeapYear y then 29 else 28 := rfl
  rw [hdim]
  by_cases hL : isLeapYear y = true
  · rw [if_pos hL]
    rw [hiff] at hL
    unfold daysBeforeYear
    omega
  · rw [if_neg hL]
    rw [hiff] at hL
    unfold daysBeforeYear
    omega

theorem daysBeforeYear_le_succ (y : Nat) :
    daysBeforeYear y ≤ daysBeforeYear (y + 1) := by
  rcases Nat.eq_zero_or_pos y with rfl | hy
  · decide
  · rw [daysBeforeYear_succ y hy]
    omega

theorem daysBeforeYear_mono {a b : Nat} (h : a ≤ b) :
    daysBeforeYear a ≤ daysBeforeYear b := by
  induction b with
  | zero =>
    have ha : a = 0 := by omega
    subst ha
    exact Nat.le_refl _
  | succ k ih =>
    by_cases hab : a ≤ k
    · exact Nat.le_trans (ih hab) (daysBeforeYear_le_succ k)
    · have ha : a = k + 1 := by omega
      subst ha
      exact Nat.le_refl _

/-- Stepping to the next day, when it does not overflow, increments the
ordinal by exactly one: Python's `timedelta(days=1)` arithmetic agrees
with `toordinal`. -/
theorem toOrdinal_nextDay (d d' : Date) (h : nextDay d = some d') :
    toOrdinal d' = toOrdinal d + 1 := by
  obtain ⟨y, m, dy, hy1, hy9, hm1, hm2, hd1, hd2⟩ := d
  unfold nextDay at h
  split at h
  · obtain rfl := Option.some.inj h
    unfold toOrdinal
    simp only
    omega
  · split at h
    · obtain rfl := Option.some.inj h
      unfold toOrdinal
      simp only
      rename_i hlt hm12
      simp only at hlt hm12 hd2
      obtain ⟨k, rfl⟩ : ∃ k, m = k + 1 := ⟨m - 1, by omega⟩
      have hstep : daysBeforeMonth y (k + 1 + 1) =
          daysBeforeMonth y (k + 1) + daysInMonth y (k + 1) := by
        simp [daysBeforeMonth]
      have hdy : dy = daysInMonth y (k + 1) := by omega
      omega
    · split at h
      · obtain rfl := Option.some.inj h
        unfold toOrdinal
        simp only
        rename_i hlt hm12 hy
        simp only at hlt hm12 hy hd2
        have hm : m = 12 := by omega
        subst hm
        have hdim12 : daysInMonth y 12 = 31 := rfl
        have hone : daysBeforeMonth (y + 1) 1 = 0 := rfl
        have h12 := daysBeforeMonth_twelve y
        have hyy := daysBeforeYear_succ y hy1
        omega
      · cases h

/-- The increment overflows exactly at `date.max = 9999-12-31`. -/
theorem nextDay_eq_none_iff (d : Date) :
    nextDay d = none ↔ d.year = 9999 ∧ d.month = 12 ∧ d.day = 31 := by
  obtain ⟨y, m, dy, hy1, hy9, hm1, hm2, hd1, hd2⟩ := d
  simp only
  constructor
  · intro h
    unfold nextDay at h
    split at h
    · cases h
    · split at h
      · cases h
      · split at h
        · cases h
        · rename_i hlt hm12 hytop
          simp only at hlt hm12 hytop hd2
          have hm : m = 12 := by omega
          subst hm
          have hdim12 : daysInMonth y 12 = 31 := rfl
          exact ⟨by omega, rfl, by omega⟩
  · rintro ⟨h1, h2, h3⟩
    subst h1
    subst h2
    subst h3
    rfl

theorem toOrdinal_eq_max_of_fields (d : Date) (hy : d.year = 9999)
    (hm : d.month = 12) (hd : d.day = 31) : toOrdinal d = 3652059 := by
  unfold toOrdinal
  rw [hy, hm, hd]
  decide

/-- No representable Python date has an ordinal beyond
`date.max.toordinal() = 3652059`. -/
theorem toOrdinal_le_max (d : Date) : toOrdinal d ≤ 3652059 := by
  obtain ⟨y, m, dy, hy1, hy9, hm1, hm2, hd1, hd2⟩ := d
  unfold toOrdinal
  simp only
  obtain ⟨k, rfl⟩ : ∃ k, m = k + 1 := ⟨m - 1, by omega⟩
  have hstep : daysBeforeMonth y (k + 1 + 1) =
      daysBeforeMonth y (k + 1) + daysInMonth y (k + 1) := by
    simp [daysBeforeMonth]
  have hmono : daysBeforeMonth y (k + 1 + 1) ≤ daysBeforeMonth y 13 :=
    daysBeforeMonth_mono y (by omega)
  have h13 := daysBeforeMonth_thirteen y
  have hsucc := daysBeforeYear_succ y hy1
  have hymono : daysBeforeYear (y + 1) ≤ daysBeforeYear 10000 :=
    daysBeforeYear_mono (by omega)
  have hval : daysBeforeYear 10000 = 3652059 := by decide
  omega

/-- The only date whose ordinal attains the maximum is 9999-12-31. -/
theorem fields_of_ordinal_max (d : Date) (h : toOrdinal d = 3652059) :
    d.year = 9999 ∧ d.month = 12 ∧ d.day = 31 := by
  obtain ⟨y, m, dy, hy1, hy9, hm1, hm2, hd1, hd2⟩ := d
  unfold toOrdinal at h
  simp only at h ⊢
  obtain ⟨k, rfl⟩ : ∃ k, m = k + 1 := ⟨m - 1, by omega⟩
  have hstep : daysBeforeMonth y (k + 1 + 1) =
      daysBeforeMonth y (k + 1) + daysInMonth y (k + 1) := by
    simp [daysBeforeMonth]
  have hmono13 : daysBeforeMonth y (k + 1 + 1) ≤ daysBeforeMonth y 13 :=
    daysBeforeMonth_mono y (by omega)
  have h13 := daysBeforeMonth_thirteen y
  have hsucc := daysBeforeYear_succ y hy1
  have hdim2 : daysInMonth y 2 ≤ 29 := by
    unfold daysInMonth
    norm_num
    split <;> omega
  have hy : y = 9999 := by
    by_contra hne
    have hmay : daysBeforeYear (y + 1) ≤ daysBeforeYear 9999 :=
      daysBeforeYear_mono (by omega)
    have hval : daysBeforeYear 9999 = 3651694 := by decide
    omega
  subst hy
  have hval9999 : daysBeforeYear 9999 = 3651694 := by decide
  have hval12 : daysBeforeMonth 9999 12 = 334 := by decide
  have hm : k + 1 = 12 := by
    by_contra hne
    have hmono12 : daysBeforeMonth 9999 (k + 1 + 1) ≤ daysBeforeMonth 9999 12 :=
      daysBeforeMonth_mono 9999 (by omega)
    omega
  refine ⟨rfl, hm, ?_⟩
  rw [hm] at h
  omega

/-- The days whose loop bodies execute (one HTTP GET each) when the
`while current_date <= end_date` loop of `download_data` starts at `cur`:
`cur`'s body runs, then `current_date += timedelta(days=1)`; if the
increment overflows the loop stops there (the exception aborts the call,
but `cur` was already fetched), otherwise iteration continues from the
next day, until the current day exceeds `endD`. -/
def visitedDays (endD : Date) (cur : Date) : List Date :=
  if h : dateLe cur endD then
    match hn : nextDay cur with
    | some nxt => cur :: visitedDays endD nxt
    | none => [cur]
  else []
termination_by toOrdinal endD + 1 - toOrdinal cur
decreasing_by
  unfold dateLe at h
  rw [toOrdinal_nextDay cur nxt hn]
  omega

theorem visitedDays_nil (endD cur : Date) (h : ¬ dateLe cur endD) :
    visitedDays endD cur = [] := by
  rw [visitedDays, dif_neg h]

theorem visitedDays_step (endD cur nxt : Date) (h : dateLe cur endD)
    (hn : nextDay cur = some nxt) :
    visitedDays endD cur = cur :: visitedDays endD nxt := by
  rw [visitedDays, dif_pos h]
  split
  · rename_i nxt' hn'
    rw [hn] at hn'
    obtain rfl := Option.some.inj hn'
    rfl
  · rename_i hn'
    rw [hn] at hn'
    simp at hn'

theorem visitedDays_last (endD cur : Date) (h : dateLe cur endD)
    (hn : nextDay cur = none) :
    visitedDays endD cur = [cur] := by
  rw [visitedDays, dif_pos h]
  split
  · rename_i nxt' hn'
    rw [hn] at hn'
    simp at hn'
  · rfl

theorem visitedDays_head (endD cur d : Date) (tl : List Date)
    (heq : visitedDays endD cur = d :: tl) : d = cur := by
  rcases Classical.em (dateLe cur endD) with h | h
  · rcases hn : nextDay cur with _ | nxt
    · rw [visitedDays_last endD cur h hn] at heq
      exact (List.cons.injEq _ _ _ _ ▸ heq).1.symm
    · rw [visitedDays_step endD cur nxt h hn] at heq
      exact (List.cons.injEq _ _ _ _ ▸ heq).1.symm
  · rw [visitedDays_nil endD cur h] at heq
    cases heq

theorem visitedDays_map_toOrdinal (endD : Date) : ∀ cur : Date,
    (visitedDays endD cur).map toOrdinal
      = List.range' (toOrdinal cur) (toOrdinal endD + 1 - toOrdinal cur) := by
  intro cur
  induction cur using visitedDays.induct endD with
  | case1 c hc nxt hn ih =>
    rw [visitedDays_step endD c nxt hc hn, List.map_cons, ih]
    unfold dateLe at hc
    have hord := toOrdinal_nextDay c nxt hn
    have hcnt : toOrdinal endD + 1 - toOrdinal c
        = (toOrdinal endD + 1 - toOrdinal nxt) + 1 := by omega
    rw [hcnt, List.range'_succ, hord]
  | case2 c hc hn =>
    rw [visitedDays_last endD c hc hn]
    obtain ⟨hy, hm, hd⟩ := (nextDay_eq_none_iff c).mp hn
    have hcmax := toOrdinal_eq_max_of_fields c hy hm hd
    have hemax := toOrdinal_le_max endD
    unfold dateLe at hc
    have hcnt : toOrdinal endD + 1 - toOrdinal c = 1 := by omega
    rw [hcnt]
    rfl
  | case3 c hc =>
    rw [visitedDays_nil endD c hc]
    unfold dateLe at hc
    have hcnt : toOrdinal endD + 1 - toOrdinal c = 0 := by omega
    rw [hcnt]
    rfl

theorem visitedDays_length (endD cur : Date) :
    (visitedDays endD cur).length = toOrdinal endD + 1 - toOrdinal cur := by
  have := congrArg List.length (visitedDays_map_toOrdinal endD cur)
  simpa using this

theorem visitedDays_chain (endD : Date) : ∀ cur : Date,
    (visitedDays endD cur).Chain' (fun a b => nextDay a = some b) := by
  intro cur
  induction cur using visitedDays.induct endD with
  | case1 c hc nxt hn ih =>
    rw [visitedDays_step endD c nxt hc hn]
    rcases heq : visitedDays endD nxt with _ | ⟨d, tl⟩
    · simp
    · have hd := visitedDays_head endD nxt d tl heq
      rw [List.chain'_cons]
      refine ⟨?_, heq ▸ ih⟩
      rw [hd]
      exact hn
  | case2 c hc hn =>
    rw [visitedDays_last endD c hc hn]
    simp
  | case3 c hc =>
    rw [visitedDays_nil endD c hc]
    exact List.chain'_nil

theorem visitedDays_nodup (endD cur : Date) : (visitedDays endD cur).Nodup := by
  apply List.Nodup.of_map toOrdinal
  rw [visitedDays_map_toOrdinal]
  exact List.nodup_range' _ _

theorem visitedDays_sorted (endD cur : Date) :
    (visitedDays endD cur).Pairwise (fun a b => toOrdinal a < toOrdinal b) := by
  have h := List.pairwise_lt_range' (toOrdinal cur)
    (toOrdinal endD + 1 - toOrdinal cur) 1 (Nat.le_refl 1)
  rw [← visitedDays_map_toOrdinal] at h
  exact (List.pairwise_map).mp h

/-! ### The fetch-decode-aggregate pipeline -/

/-- A pandas dataframe as produced by `pd.read_csv(csv_file, header=None)`:
a rectangular table whose columns are positional (`0 .. ncols-1`); an entry
`none` stands for a missing value (NaN). -/
structure DF where
  ncols : Nat
  rows : List (List (Option Int))
  rect : ∀ r ∈ rows, r.length = ncols

/-- The outcome, for one URL, of the remote source together with the
delegated zip/CSV decoding libraries:
either `requests.get` raises (`transportExn`), or it returns a response
with a status code whose body, when opened as a zip and parsed as a CSV
(`zipfile.ZipFile`, `namelist()[0]`, `pd.read_csv`), either raises
(`Except.error`) or yields a dataframe (`Except.ok`). -/
inductive DayResult where
  | transportExn : DayResult
  | response : Nat → Except Unit DF → DayResult

/-- The body of the per-day `try:` block of `download_data`:
`requests.get(url)` (which may raise), then the `status_code == 200` test;
on 200 the archive is opened and parsed (which may raise), yielding a
dataframe; on a non-200 status the day is logged as having no data and
nothing is appended.  `Except.error` is an exception escaping the block. -/
def tryFetchDay (env : String → DayResult) (url : String) :
    Except Unit (Option DF) :=
  match env url with
  | .transportExn => .error ()
  | .response status parsed =>
    if status = 200 then
      match parsed with
      | .ok df => .ok (some df)
      | .error e => .error e
    else .ok none

/-- One iteration's effect on the accumulator: the `try/except` of
`download_data` — any exception from `tryFetchDay` is caught and logged,
and the day contributes no rows. -/
def processDay (env : String → DayResult) (url : String) : Option DF :=
  match tryFetchDay env url with
  | .ok r => r
  | .error _ => none

/-! ### URL and path construction -/

/-- Left-pad the decimal rendering of `n` with zeros to width `w`. -/
def zeroPad (w n : Nat) : String :=
  let s := Nat.repr n
  String.mk (List.replicate (w - s.length) '0') ++ s

/-- `dt.strftime("%Y-%m-%d")`, equally Python's `str(date)` (ISO form):
zero-padded `YYYY-MM-DD`. -/
def dateToIso (d : Date) : String :=
  zeroPad 4 d.year ++ "-" ++ zeroPad 2 d.month ++ "-" ++ zeroPad 2 d.day

/-- `self.kline_url_prefix`, set once in `__init__` and never mutated. -/
def klineUrlBase : String :=
  "https://data.binance.vision/data/spot/daily/klines"

/-- `BinanceDataDownloader.get_url(timeframe, symbol, dt)`. -/
def get_url (timeframe symbol : String) (dt : Date) : String :=
  klineUrlBase ++ "/" ++ symbol ++ "/" ++ timeframe ++ "/" ++ symbol ++ "-"
    ++ timeframe ++ "-" ++ dateToIso dt ++ ".zip"

/-- The day loop of `download_data` from `cur` to `endD`: per iteration,
the day's dataframe is appended to the accumulator when `processDay`
yields one, then `current_date += timedelta(days=1)` runs — *outside* the
`try`/`except` — so if it overflows (`nextDay = none`), the
`OverflowError` escapes the call uncaught (`Except.error`) and the
accumulated data is discarded; otherwise the loop continues until the
current day exceeds `endD`, and the accumulator is produced
(`Except.ok`). -/
def downloadLoop (env : String → DayResult) (symbol timeframe : String)
    (endD : Date) (cur : Date) : Except Unit (List DF) :=
  if h : dateLe cur endD then
    match hn : nextDay cur with
    | some nxt =>
      match downloadLoop env symbol timeframe endD nxt with
      | .ok rest =>
        .ok ((processDay env (get_url timeframe symbol cur)).toList ++ rest)
      | .error err => .error err
    | none => .error ()
  else .ok []
termination_by toOrdinal endD + 1 - toOrdinal cur
decreasing_by
  unfold dateLe at h
  rw [toOrdinal_nextDay cur nxt hn]
  omega

theorem downloadLoop_nil (env : String → DayResult) (symbol timeframe : String)
    (endD cur : Date) (h : ¬ dateLe cur endD) :
    downloadLoop env symbol timeframe endD cur = .ok [] := by
  rw [downloadLoop, dif_neg h]

theorem downloadLoop_step (env : String → DayResult) (symbol timeframe : String)
    (endD cur nxt : Date) (h : dateLe cur endD) (hn : nextDay cur = some nxt) :
    downloadLoop env symbol timeframe endD cur
      = (downloadLoop env symbol timeframe endD nxt).map
          (fun rest => (processDay env (get_url timeframe symbol cur)).toList ++ rest) := by
  rw [downloadLoop, dif_pos h]
  split
  · rename_i nxt' hn'
    rw [hn] at hn'
    obtain rfl := Option.some.inj hn'
    cases downloadLoop env symbol timeframe endD nxt with
    | ok rest => rfl
    | error err => rfl
  · rename_i hn'
    rw [hn] at hn'
    simp at hn'

theorem downloadLoop_last (env : String → DayResult) (symbol timeframe : String)
    (endD cur : Date) (h : dateLe cur endD) (hn : nextDay cur = none) :
    downloadLoop env symbol timeframe endD cur = .error () := by
  rw [downloadLoop, dif_pos h]
  split
  · rename_i nxt' hn'
    rw [hn] at hn'
    simp at hn'
  · rfl

/-- When `endD` is not `date.max`, no increment in the loop overflows: the
loop runs to completion and the accumulator is the per-day fetch outcome
filtered over the visited days, in visit order. -/
theorem downloadLoop_ok (env : String → DayResult) (symbol timeframe : String)
    (endD : Date)
    (hmax : ¬(endD.year = 9999 ∧ endD.month = 12 ∧ endD.day = 31)) :
    ∀ cur : Date,
    downloadLoop env symbol timeframe endD cur
      = .ok ((visitedDays endD cur).filterMap
          fun d => processDay env (get_url timeframe symbol d)) := by
  intro cur
  induction cur using visitedDays.induct endD with
  | case1 c hc nxt hn ih =>
    rw [downloadLoop_step env symbol timeframe endD c nxt hc hn, ih,
      visitedDays_step endD c nxt hc hn, List.filterMap_cons]
    cases hpd : processDay env (get_url timeframe symbol c) with
    | none => simp [hpd, Except.map]
    | some df => simp [hpd, Except.map]
  | case2 c hc hn =>
    exfalso
    obtain ⟨hy, hm, hd⟩ := (nextDay_eq_none_iff c).mp hn
    have hcmax := toOrdinal_eq_max_of_fields c hy hm hd
    have hemax := toOrdinal_le_max endD
    unfold dateLe at hc
    have hord : toOrdinal endD = 3652059 := by omega
    exact hmax (fields_of_ordinal_max endD hord)
  | case3 c hc =>
    rw [downloadLoop_nil env symbol timeframe endD c hc,
      visitedDays_nil endD c hc]
    rfl

/-! ### Post-loop: concat, column naming, indexing, serialization -/

theorem le_foldr_max (l : List Nat) (x : Nat) (hx : x ∈ l) :
    x ≤ l.foldr Nat.max 0 := by
  induction l with
  | nil => cases hx
  | cons a t ih =>
    rcases List.mem_cons.mp hx with rfl | hm
    · exact Nat.le_max_left _ _
    · exact Nat.le_trans (ih hm) (Nat.le_max_right _ _)

/-- `pd.concat(all_data, ignore_index=True)`: rows of all frames in order;
the column set is the union of the positional column ranges (so the result
has the maximum column count), and rows of narrower frames are filled with
missing values (NaN) in the extra columns. -/
def dfConcat (dfs : List DF) : DF :=
  let n := (dfs.map DF.ncols).foldr Nat.max 0
  { ncols := n
    rows := dfs.flatMap fun df =>
      df.rows.map fun r => r ++ List.replicate (n - df.ncols) (none : Option Int)
    rect := by
      intro r hr
      rcases List.mem_flatMap.mp hr with ⟨df, hdf, hr'⟩
      rcases List.mem_map.mp hr' with ⟨r0, hr0, rfl⟩
      have hle : df.ncols ≤ n :=
        le_foldr_max _ _ (List.mem_map.mpr ⟨df, hdf, rfl⟩)
      simp [df.rect r0 hr0]
      omega }

/-- A pandas datetime64 value as produced by
`pd.to_datetime(v, unit='ms')`: it carries the instant `v` milliseconds
after the epoch (`none` is `NaT`, from a missing input). -/
structure PDDatetime where
  ms : Option Int
deriving DecidableEq

/-- `pd.to_datetime(v, unit='ms')` on one entry. -/
def msToDatetime (v : Option Int) : PDDatetime := ⟨v⟩

/-- The 12 column names assigned to `combined_df.columns`. -/
def colNames12 : List String :=
  ["timestamp", "open", "high", "low", "close", "volume", "close_time",
   "quote_volume", "trades", "taker_buy_base", "taker_buy_quote", "ignore"]

/-- The 11 data column names left after `timestamp` becomes the index. -/
def dataColNames : List String := colNames12.tail

/-- The final dataframe: named data columns plus a datetime row index
(the result of `set_index('timestamp')`). -/
structure IndexedDF where
  colNames : List String
  rows : List (PDDatetime × List (Option Int))
deriving DecidableEq

/-- The structured content of the file written by `combined_df.to_csv`:
a header line (index name then data column names) and one line per row,
the datetime index first.  Rendering these to bytes is delegated to the
tabular library and is deterministic in this content. -/
structure CsvContent where
  header : List String
  body : List (PDDatetime × List (Option Int))
deriving DecidableEq

/-- What a call to `download_data` produces when no exception escapes:
the returned value (a table or `None`) and the file written, if any. -/
structure DownloadOutcome where
  result : Option IndexedDF
  written : Option (String × CsvContent)
deriving DecidableEq

/-- `self.base_path / f"{symbol}_{timeframe}_{start_date}_{end_date}.csv"`;
Python renders a `date` in an f-string via `str`, the ISO form. -/
def outputPath (basePath symbol timeframe : String) (startD endD : Date) : String :=
  basePath ++ "/" ++ symbol ++ "_" ++ timeframe ++ "_" ++ dateToIso startD
    ++ "_" ++ dateToIso endD ++ ".csv"

/-- `BinanceDataDownloader.download_data(symbol, timeframe, start_date,
end_date)`, parameterised by the environment `env` (the remote source plus
decoding libraries, a fixed function from URL to per-day outcome) and by
`basePath` (`self.base_path`).  `Except.error` is an uncaught exception
escaping the call: nothing is returned and no file is written.  An
`OverflowError` from the date increment (the `bind` short-circuit)
propagates this way.  Otherwise, `if all_data:` guards the
post-processing; on the truthy branch `pd.concat` is followed by the
12-name column assignment — which raises (uncaught) when the combined
column count differs from 12 — then the timestamp column is converted to
a datetime index (consuming it), the table is serialized to the output
path, and the table is returned. -/
def download_data (env : String → DayResult) (basePath symbol timeframe : String)
    (startD endD : Date) : Except Unit DownloadOutcome :=
  (downloadLoop env symbol timeframe endD startD).bind fun all_data =>
    if all_data.isEmpty then
      .ok { result := none, written := none }
    else
      let combined := dfConcat all_data
      if combined.ncols = 12 then
        let indexed : IndexedDF :=
          { colNames := dataColNames
            rows := combined.rows.map fun r => (msToDatetime r.headI, r.tail) }
        let output_file := outputPath basePath symbol timeframe startD endD
        .ok { result := some indexed
              written := some (output_file,
                { header := "timestamp" :: dataColNames, body := indexed.rows }) }
      else
        .error ()

theorem flatMap_pad_of_all_eq (dfs : List DF) (n : Nat)
    (h : ∀ df ∈ dfs, df.ncols = n) :
    (dfs.flatMap fun df =>
        df.rows.map fun r => r ++ List.replicate (n - df.ncols) (none : Option Int))
      = dfs.flatMap DF.rows := by
  induction dfs with
  | nil => rfl
  | cons a t ih =>
    simp only [List.flatMap_cons]
    rw [ih (fun df hdf => h df (List.mem_cons_of_mem _ hdf))]
    have ha : a.ncols = n := h a (List.mem_cons_self _ _)
    have : (fun r => r ++ List.replicate (n - a.ncols) (none : Option Int))
        = fun r : List (Option Int) => r := by
      funext r
      rw [ha, Nat.sub_self, List.replicate_zero, List.append_nil]
    rw [this, List.map_id']

theorem foldr_max_of_all_eq (l : List Nat) (n : Nat) (hne : l ≠ [])
    (h : ∀ x ∈ l, x = n) : l.foldr Nat.max 0 = n := by
  induction l with
  | nil => exact absurd rfl hne
  | cons a t ih =>
    have ha : a = n := h a (List.mem_cons_self _ _)
    cases t with
    | nil => simp [ha]
    | cons b t2 =>
      have ht := ih (by simp) (fun x hx => h x (List.mem_cons_of_mem _ hx))
      simp only [List.foldr_cons] at ht ⊢
      rw [ht, ha]
      exact Nat.max_self n

/-- When every accumulated frame has the expected 12 columns,
`pd.concat` degenerates to plain row concatenation and keeps 12 columns. -/
theorem dfConcat_of_all12 (dfs : List DF) (hne : dfs ≠ [])
    (h12 : ∀ df ∈ dfs, df.ncols = 12) :
    (dfConcat dfs).ncols = 12 ∧ (dfConcat dfs).rows = dfs.flatMap DF.rows := by
  have hn : (dfs.map DF.ncols).foldr Nat.max 0 = 12 := by
    apply foldr_max_of_all_eq
    · simp [hne]
    · intro x hx
      rcases List.mem_map.mp hx with ⟨df, hdf, rfl⟩
      exact h12 df hdf
  constructor
  · show (dfs.map DF.ncols).foldr Nat.max 0 = 12
    exact hn
  · show (dfs.flatMap fun df => df.rows.map fun r =>
        r ++ List.replicate ((dfs.map DF.ncols).foldr Nat.max 0 - df.ncols)
          (none : Option Int)) = dfs.flatMap DF.rows
    rw [hn]
    exact flatMap_pad_of_all_eq dfs 12 h12

/-- `download_data` when the loop raises: the exception propagates out of
the call uncaught — no file written, no value returned. -/
theorem download_data_of_loop_error (env : String → DayResult)
    (basePath symbol timeframe : String) (startD endD : Date)
    (h : downloadLoop env symbol timeframe endD startD = .error ()) :
    download_data env basePath symbol timeframe startD endD = .error () := by
  unfold download_data
  rw [h]
  rfl

/-- `download_data` when the loop completes with an empty accumulator:
the `if all_data:` test is falsy, no file is written, `None` is
returned. -/
theorem download_data_of_nil (env : String → DayResult)
    (basePath symbol timeframe : String) (startD endD : Date)
    (h : downloadLoop env symbol timeframe endD startD = .ok []) :
    download_data env basePath symbol timeframe startD endD
      = .ok { result := none, written := none } := by
  unfold download_data
  rw [h]
  rfl

/-- `download_data` when the loop completes with a nonempty accumulator
whose concatenation has the expected 12 columns: column naming succeeds,
the timestamp column becomes the index, the table is written to the
output path and returned. -/
theorem download_data_of_ok (env : String → DayResult)
    (basePath symbol timeframe : String) (startD endD : Date)
    (all_data : List DF)
    (hok : downloadLoop env symbol timeframe endD startD = .ok all_data)
    (hne : all_data ≠ [])
    (h12 : (dfConcat all_data).ncols = 12) :
    download_data env basePath symbol timeframe startD endD
      = .ok { result := some
                { colNames := dataColNames
                  rows := (dfConcat all_data).rows.map
                    fun r => (msToDatetime r.headI, r.tail) }
              written := some (outputPath basePath symbol timeframe startD endD,
                { header := "timestamp" :: dataColNames
                  body := (dfConcat all_data).rows.map
                    fun r => (msToDatetime r.headI, r.tail) }) } := by
  unfold download_data
  rw [hok]
  show (if all_data.isEmpty then
      (.ok { result := none, written := none } : Except Unit DownloadOutcome)
    else if (dfConcat all_data).ncols = 12 then
      .ok { result := some
              { colNames := dataColNames
                rows := (dfConcat all_data).rows.map
                  fun r => (msToDatetime r.headI, r.tail) }
            written := some (outputPath basePath symbol timeframe startD endD,
              { header := "timestamp" :: dataColNames
                body := (dfConcat all_data).rows.map
                  fun r => (msToDatetime r.headI, r.tail) }) }
    else .error ()) = _
  rw [if_neg (by simpa using hne), if_pos h12]

/-- `download_data` when the loop completes with a nonempty accumulator
whose concatenation does not have 12 columns: the column-name assignment
raises, uncaught. -/
theorem download_data_of_mismatch (env : String → DayResult)
    (basePath symbol timeframe : String) (startD endD : Date)
    (all_data : List DF)
    (hok : downloadLoop env symbol timeframe endD startD = .ok all_data)
    (hne : all_data ≠ [])
    (h12 : (dfConcat all_data).ncols ≠ 12) :
    download_data env basePath symbol timeframe startD endD = .error () := by
  unfold download_data
  rw [hok]
  show (if all_data.isEmpty then
      (.ok { result := none, written := none } : Except Unit DownloadOutcome)
    else if (dfConcat all_data).ncols = 12 then
      .ok { result := some
              { colNames := dataColNames
                rows := (dfConcat all_data).rows.map
                  fun r => (msToDatetime r.headI, r.tail) }
            written := some (outputPath basePath symbol timeframe startD endD,
              { header := "timestamp" :: dataColNames
                body := (dfConcat all_data).rows.map
                  fun r => (msToDatetime r.headI, r.tail) }) }
    else .error ()) = _
  rw [if_neg (by simpa using hne), if_neg h12]

/-! ### Concrete test fixtures -/

def date20240101 : Date :=
  ⟨2024, 1, 1, by omega, by omega, by omega, by omega, by omega, by decide⟩

def date20240102 : Date :=
  ⟨2024, 1, 2, by omega, by omega, by omega, by omega, by omega, by decide⟩

def date20240103 : Date :=
  ⟨2024, 1, 3, by omega, by omega, by omega, by omega, by omega, by decide⟩

/-- Python's `date.max = date(9999, 12, 31)`. -/
def dateMax : Date :=
  ⟨9999, 12, 31, by omega, by omega, by omega, by omega, by omega, by decide⟩

/-- A single 12-field candlestick row, as parsed from a daily CSV. -/
def df12 : DF :=
  ⟨12, [[some 0, some 1, some 2, some 3, some 4, some 5, some 6, some 7,
         some 8, some 9, some 10, some 11]], by
    intro r hr
    rw [List.mem_singleton] at hr
    subst hr
    rfl⟩

/-- A malformed day: rows of 11 fields only. -/
def df11 : DF :=
  ⟨11, [[some 0, some 1, some 2, some 3, some 4, some 5, some 6, some 7,
         some 8, some 9, some 10]], by
    intro r hr
    rw [List.mem_singleton] at hr
    subst hr
    rfl⟩

/-- A remote source on which every request succeeds with one 12-field row. -/
def envOk : String → DayResult := fun _ => .response 200 (.ok df12)

/-- A remote source on which every request raises a transport exception. -/
def envFail : String → DayResult := fun _ => .transportExn

/-- A remote source answering HTTP 500 on every request. -/
def env500 : String → DayResult := fun _ => .response 500 (.error ())

/-- A remote source whose archives parse to 11-column rows. -/
def envOk11 : String → DayResult := fun _ => .response 200 (.ok df11)

theorem downloadLoop_envOk_eval :
    downloadLoop envOk "BTCUSDT" "1h" date20240101 date20240101 = .ok [df12] := by
  rw [downloadLoop_step envOk "BTCUSDT" "1h" date20240101 date20240101
      date20240102 (by decide) rfl,
    downloadLoop_nil envOk "BTCUSDT" "1h" date20240101 date20240102 (by decide)]
  rfl

theorem downloadLoop_envOk11_eval :
    downloadLoop envOk11 "BTCUSDT" "1h" date20240101 date20240101 = .ok [df11] := by
  rw [downloadLoop_step envOk11 "BTCUSDT" "1h" date20240101 date20240101
      date20240102 (by decide) rfl,
    downloadLoop_nil envOk11 "BTCUSDT" "1h" date20240101 date20240102 (by decide)]
  rfl

/-- On a range ending at `date.max`, the final increment overflows and
the loop raises, whatever the remote source does. -/
theorem downloadLoop_dateMax_error (env : String → DayResult)
    (symbol timeframe : String) :
    downloadLoop env symbol timeframe dateMax dateMax = .error () :=
  downloadLoop_last env symbol timeframe dateMax dateMax (by decide) rfl

theorem download_data_dateMax_error (env : String → DayResult)
    (basePath symbol timeframe : String) :
    download_data env basePath symbol timeframe dateMax dateMax = .error () :=
  download_data_of_loop_error env basePath symbol timeframe dateMax dateMax
    (downloadLoop_dateMax_error env symbol timeframe)

theorem visitedDays_dateMax : visitedDays dateMax dateMax = [dateMax] :=
  visitedDays_last dateMax dateMax (by decide) rfl

/-- The row content of the one-day `envOk` run after timestamp conversion. -/
def rows12idx : List (PDDatetime × List (Option Int)) :=
  [(⟨some 0⟩, [some 1, some 2, some 3, some 4, some 5, some 6, some 7,
               some 8, some 9, some 10, some 11])]

theorem download_data_envOk_eval :
    download_data envOk "data" "BTCUSDT" "1h" date20240101 date20240101
      = .ok { result := some { colNames := dataColNames, rows := rows12idx }
              written := some ("data/BTCUSDT_1h_2024-01-01_2024-01-01.csv",
                { header := "timestamp" :: dataColNames, body := rows12idx }) } := by
  have hok := downloadLoop_envOk_eval
  have hne : ([df12] : List DF) ≠ [] := by simp
  have h12 : (dfConcat [df12]).ncols = 12 := rfl
  rw [download_data_of_ok envOk "data" "BTCUSDT" "1h"
    date20240101 date20240101 [df12] hok hne h12]
  rfl

/-! ### The claims -/

/-- C4 (amended): For every call with `start_date ≤ end_date` *and
`end_date` strictly before `date.max = 9999-12-31`*, the day loop of
`download_data` visits exactly `(end_date - start_date).days + 1` calendar
days (Python's `(e - s).days` is `toOrdinal e - toOrdinal s`), each exactly
once, in ascending order, advancing by exactly one calendar day per
iteration, and terminates normally when the current day exceeds
`end_date`, reaching the post-loop phase.  (At `end_date = date.max` the
increment instead raises `OverflowError`, see the counterexample.) -/
theorem c4_day_loop_spec (s e : Date) (h : dateLe s e)
    (hmax : ¬(e.year = 9999 ∧ e.month = 12 ∧ e.day = 31)) :
    (visitedDays e s).length = toOrdinal e - toOrdinal s + 1 ∧
    (visitedDays e s).map toOrdinal
      = List.range' (toOrdinal s) (toOrdinal e - toOrdinal s + 1) ∧
    (visitedDays e s).Nodup ∧
    (visitedDays e s).Pairwise (fun a b => toOrdinal a < toOrdinal b) ∧
    (visitedDays e s).Chain' (fun a b => nextDay a = some b) ∧
    (∀ cur : Date, ¬ dateLe cur e → visitedDays e cur = []) ∧
    ∀ env : String → DayResult, ∀ symbol timeframe : String,
      downloadLoop env symbol timeframe e s
        = .ok ((visitedDays e s).filterMap
            fun d => processDay env (get_url timeframe symbol d)) := by
  unfold dateLe at h
  have hn : toOrdinal e + 1 - toOrdinal s = toOrdinal e - toOrdinal s + 1 := by
    omega
  refine ⟨?_, ?_, visitedDays_nodup e s, visitedDays_sorted e s,
    visitedDays_chain e s, fun cur hc => visitedDays_nil e cur hc,
    fun env symbol timeframe => downloadLoop_ok env symbol timeframe e hmax s⟩
  · rw [visitedDays_length, hn]
  · rw [visitedDays_map_toOrdinal, hn]

/-- C4 counterexample: at `end_date = date.max = 9999-12-31` the loop
does not terminate normally — the post-iteration increment (outside the
`try`) raises `OverflowError`, aborting the whole call — refuting
"terminating when the current day exceeds end_date" as stated for every
`start_date ≤ end_date`. -/
theorem c4_overflow_counterexample :
    dateLe dateMax dateMax ∧
    downloadLoop env500 "BTCUSDT" "1h" dateMax dateMax = .error () ∧
    download_data env500 "data" "BTCUSDT" "1h" dateMax dateMax = .error () :=
  ⟨by decide, downloadLoop_dateMax_error env500 "BTCUSDT" "1h",
   download_data_dateMax_error env500 "data" "BTCUSDT" "1h"⟩

theorem c4_day_loop_spec_witness :
    (dateLe date20240101 date20240103 ∧
      ¬(date20240103.year = 9999 ∧ date20240103.month = 12 ∧
        date20240103.day = 31)) ∧
    (visitedDays date20240103 date20240101).length
      = toOrdinal date20240103 - toOrdinal date20240101 + 1 :=
  ⟨⟨by decide, by decide⟩,
   (c4_day_loop_spec date20240101 date20240103 (by decide) (by decide)).1⟩

/-- C9: When `start_date > end_date`, the `while` condition is false at
entry: the loop body runs zero times, so no day is visited (hence no HTTP
request is issued — one GET is issued per visited day), no increment
executes (so no overflow is reachable), the accumulator stays empty, the
`if all_data:` test is falsy, no file is written and `None` is returned;
no exception is raised (the call returns normally). -/
theorem c9_empty_range (env : String → DayResult)
    (basePath symbol timeframe : String) (s e : Date) (h : ¬ dateLe s e) :
    visitedDays e s = [] ∧
    downloadLoop env symbol timeframe e s = .ok [] ∧
    download_data env basePath symbol timeframe s e
      = .ok { result := none, written := none } := by
  have hv : visitedDays e s = [] := visitedDays_nil e s h
  have hl : downloadLoop env symbol timeframe e s = .ok [] :=
    downloadLoop_nil env symbol timeframe e s h
  exact ⟨hv, hl, download_data_of_nil env basePath symbol timeframe s e hl⟩

theorem c9_empty_range_witness :
    ¬ dateLe date20240102 date20240101 ∧
    download_data envOk "data" "BTCUSDT" "1h" date20240102 date20240101
      = .ok { result := none, written := none } :=
  ⟨by decide,
   (c9_empty_range envOk "data" "BTCUSDT" "1h" date20240102 date20240101
     (by decide)).2.2⟩

/-- C2 (amended): If every visited day fails (non-200 response, exception,
or no rows parsed — i.e. `processDay` appends nothing for any visited
day), *and `end_date` is not `date.max = 9999-12-31`* (so the final
increment does not overflow), the accumulator is empty after the loop,
and `download_data` returns `None` and writes no output file.  (At
`end_date = date.max` the call instead raises `OverflowError`, see the
counterexample.) -/
theorem c2_all_days_fail (env : String → DayResult)
    (basePath symbol timeframe : String) (s e : Date)
    (hmax : ¬(e.year = 9999 ∧ e.month = 12 ∧ e.day = 31))
    (hfail : ∀ d ∈ visitedDays e s,
      processDay env (get_url timeframe symbol d) = none) :
    downloadLoop env symbol timeframe e s = .ok [] ∧
    download_data env basePath symbol timeframe s e
      = .ok { result := none, written := none } := by
  have hl : downloadLoop env symbol timeframe e s = .ok [] := by
    rw [downloadLoop_ok env symbol timeframe e hmax s,
      List.filterMap_eq_nil_iff.mpr hfail]
  exact ⟨hl, download_data_of_nil env basePath symbol timeframe s e hl⟩

/-- C2 counterexample: with the all-failing remote source and the
one-day range at `date.max`, every day fails, yet the call does not
return `None` — the increment overflows and the `OverflowError`
propagates uncaught. -/
theorem c2_overflow_counterexample :
    visitedDays dateMax dateMax = [dateMax] ∧
    processDay envFail (get_url "1h" "BTCUSDT" dateMax) = none ∧
    download_data envFail "data" "BTCUSDT" "1h" dateMax dateMax
      = .error () :=
  ⟨visitedDays_dateMax, rfl,
   download_data_dateMax_error envFail "data" "BTCUSDT" "1h"⟩

theorem c2_all_days_fail_witness :
    (¬(date20240103.year = 9999 ∧ date20240103.month = 12 ∧
        date20240103.day = 31) ∧
      ∀ d ∈ visitedDays date20240103 date20240101,
        processDay envFail (get_url "1h" "BTCUSDT" d) = none) ∧
    download_data envFail "data" "BTCUSDT" "1h" date20240101 date20240103
      = .ok { result := none, written := none } :=
  ⟨⟨by decide, fun _ _ => rfl⟩,
   (c2_all_days_fail envFail "data" "BTCUSDT" "1h" date20240101 date20240103
     (by decide) (fun _ _ => rfl)).2⟩

/-- C3: Per-day failures never abort the call: a transport exception, a
non-200 HTTP status, and an archive/parse exception each make `processDay`
yield nothing for that day (the exception is caught by the per-day
`except`, the non-200 status just logged), no row is appended, and the
loop proceeds to the next calendar day — whenever the increment yields a
next day, one loop step rewrites to the day's contribution prepended to
the loop on that next day. -/
theorem c3_per_day_failure (env : String → DayResult)
    (symbol timeframe : String) (e cur : Date) :
    (∀ url, env url = .transportExn → processDay env url = none) ∧
    (∀ url status parsed, env url = .response status parsed → status ≠ 200 →
      processDay env url = none) ∧
    (∀ url err, env url = .response 200 (.error err) →
      processDay env url = none) ∧
    (∀ nxt : Date, dateLe cur e → nextDay cur = some nxt →
      downloadLoop env symbol timeframe e cur
        = (downloadLoop env symbol timeframe e nxt).map
            (fun rest =>
              (processDay env (get_url timeframe symbol cur)).toList ++ rest)) := by
  refine ⟨?_, ?_, ?_, ?_⟩
  · intro url hu
    unfold processDay tryFetchDay
    rw [hu]
  · intro url status parsed hu hs
    unfold processDay tryFetchDay
    rw [hu]
    simp [hs]
  · intro url err hu
    unfold processDay tryFetchDay
    rw [hu]
    simp
  · intro nxt h hn
    exact downloadLoop_step env symbol timeframe e cur nxt h hn

theorem c3_per_day_failure_witness :
    processDay envFail "u" = none ∧
    processDay env500 "u" = none ∧
    downloadLoop envFail "BTCUSDT" "1h" date20240102 date20240101
      = (downloadLoop envFail "BTCUSDT" "1h" date20240102 date20240102).map
          (fun rest =>
            (processDay envFail (get_url "1h" "BTCUSDT" date20240101)).toList
              ++ rest) :=
  ⟨(c3_per_day_failure envFail "BTCUSDT" "1h" date20240102 date20240101).1
      "u" rfl,
   (c3_per_day_failure env500 "BTCUSDT" "1h" date20240102 date20240101).2.1
      "u" 500 (.error ()) rfl (by decide),
   (c3_per_day_failure envFail "BTCUSDT" "1h" date20240102 date20240101).2.2.2
      date20240102 (by decide) rfl⟩

/-- C1 (amended): When at least one day succeeds (the filtered per-day
outcomes over the visited days are nonempty), the per-day row-sets have
the 12 fields the data model fixes, *and `end_date` is not
`date.max = 9999-12-31`* (so the loop completes instead of raising
`OverflowError`), the returned table is exactly the concatenation of the
successful days' row-sets — the accumulator is the per-day fetch outcome
filtered over the visited days in ascending day order, within-day row
order preserved, no re-sorting and no deduplication (each row is carried
over 1:1, re-keyed by its converted timestamp) — and its row count is the
sum of the successful days' row counts.  (At `end_date = date.max` no
table is returned even when days succeed, see the counterexample.) -/
theorem c1_concat_successful_days (env : String → DayResult)
    (basePath symbol timeframe : String) (s e : Date)
    (hmax : ¬(e.year = 9999 ∧ e.month = 12 ∧ e.day = 31))
    (hne : (visitedDays e s).filterMap
        (fun d => processDay env (get_url timeframe symbol d)) ≠ [])
    (h12 : ∀ df ∈ (visitedDays e s).filterMap
        (fun d => processDay env (get_url timeframe symbol d)), df.ncols = 12) :
    downloadLoop env symbol timeframe e s
      = .ok ((visitedDays e s).filterMap
          (fun d => processDay env (get_url timeframe symbol d))) ∧
    ∃ t : IndexedDF,
      download_data env basePath symbol timeframe s e
        = .ok { result := some t
                written := some (outputPath basePath symbol timeframe s e,
                  { header := "timestamp" :: dataColNames, body := t.rows }) } ∧
      t.rows = ((visitedDays e s).filterMap
          (fun d => processDay env (get_url timeframe symbol d))).flatMap
          (fun df => df.rows.map fun r => (msToDatetime r.headI, r.tail)) ∧
      t.rows.length
        = (((visitedDays e s).filterMap
            (fun d => processDay env (get_url timeframe symbol d))).map
            fun df => df.rows.length).sum := by
  have hok := downloadLoop_ok env symbol timeframe e hmax s
  obtain ⟨hc12, hcrows⟩ := dfConcat_of_all12 _ hne h12
  refine ⟨hok, ?_⟩
  rw [download_data_of_ok env basePath symbol timeframe s e _ hok hne hc12]
  refine ⟨_, rfl, ?_, ?_⟩
  · rw [hcrows, List.map_flatMap]
  · rw [hcrows, List.map_flatMap, List.length_flatMap]
    have hfun : (List.length ∘ fun df : DF =>
        List.map (fun r => (msToDatetime r.headI, r.tail)) df.rows)
        = fun df : DF => df.rows.length := by
      funext df
      simp
    rw [hfun]

/-- C1 counterexample: with the always-succeeding remote source and the
one-day range at `date.max`, the day's fetch succeeds, yet no table is
returned and no file written — the post-iteration increment raises
`OverflowError` uncaught — refuting the claim as stated for every call
with a successful day. -/
theorem c1_overflow_counterexample :
    processDay envOk (get_url "1h" "BTCUSDT" dateMax) = some df12 ∧
    download_data envOk "data" "BTCUSDT" "1h" dateMax dateMax = .error () ∧
    (download_data envOk "data" "BTCUSDT" "1h" dateMax dateMax).toOption
      = none := by
  refine ⟨rfl, download_data_dateMax_error envOk "data" "BTCUSDT" "1h", ?_⟩
  rw [download_data_dateMax_error envOk "data" "BTCUSDT" "1h"]
  rfl

theorem c1_concat_successful_days_witness :
    (visitedDays date20240101 date20240101).filterMap
        (fun d => processDay envOk (get_url "1h" "BTCUSDT" d)) ≠ [] ∧
    ∃ t : IndexedDF,
      download_data envOk "data" "BTCUSDT" "1h" date20240101 date20240101
        = .ok { result := some t
                written := some (outputPath "data" "BTCUSDT" "1h"
                    date20240101 date20240101,
                  { header := "timestamp" :: dataColNames, body := t.rows }) } ∧
      t.rows = ((visitedDays date20240101 date20240101).filterMap
          (fun d => processDay envOk (get_url "1h" "BTCUSDT" d))).flatMap
          (fun df => df.rows.map fun r => (msToDatetime r.headI, r.tail)) ∧
      t.rows.length
        = (((visitedDays date20240101 date20240101).filterMap
            (fun d => processDay envOk (get_url "1h" "BTCUSDT" d))).map
            fun df => df.rows.length).sum := by
  have hv : visitedDays date20240101 date20240101 = [date20240101] :=
    visitedDays_step date20240101 date20240101 date20240102 (by decide) rfl
      |>.trans (by rw [visitedDays_nil date20240101 date20240102 (by decide)])
  have hlist : (visitedDays date20240101 date20240101).filterMap
      (fun d => processDay envOk (get_url "1h" "BTCUSDT" d)) = [df12] := by
    rw [hv]
    rfl
  have hne : (visitedDays date20240101 date20240101).filterMap
      (fun d => processDay envOk (get_url "1h" "BTCUSDT" d)) ≠ [] := by
    rw [hlist]
    simp
  have h12 : ∀ df ∈ (visitedDays date20240101 date20240101).filterMap
      (fun d => processDay envOk (get_url "1h" "BTCUSDT" d)), df.ncols = 12 := by
    rw [hlist]
    intro df hdf
    rw [List.mem_singleton] at hdf
    subst hdf
    rfl
  exact ⟨hne, (c1_concat_successful_days envOk "data" "BTCUSDT" "1h"
    date20240101 date20240101 (by decide) hne h12).2⟩

/-- C5: Whenever `download_data` returns a table, its data columns are, in
order, exactly `open, high, low, close, volume, close_time, quote_volume,
trades, taker_buy_base, taker_buy_quote, ignore`; its row index is the
timestamp column converted from integer milliseconds to a datetime value,
with the original timestamp column consumed (each final row is the
converted head of the 12-field combined row paired with the remaining 11
fields, not the full 12); and the persisted file carries the datetime
index as its first column (header `timestamp` first) followed by those 11
columns — whichever days succeeded. -/
theorem c5_schema (env : String → DayResult)
    (basePath symbol timeframe : String) (s e : Date)
    (o : DownloadOutcome) (t : IndexedDF)
    (h : download_data env basePath symbol timeframe s e = .ok o)
    (ht : o.result = some t) :
    t.colNames = ["open", "high", "low", "close", "volume", "close_time",
      "quote_volume", "trades", "taker_buy_base", "taker_buy_quote",
      "ignore"] ∧
    (∃ all_data : List DF,
      downloadLoop env symbol timeframe e s = .ok all_data ∧
      t.rows = (dfConcat all_data).rows.map
        (fun r => (msToDatetime r.headI, r.tail))) ∧
    o.written = some (outputPath basePath symbol timeframe s e,
      { header := "timestamp" :: t.colNames, body := t.rows }) := by
  rcases hdl : downloadLoop env symbol timeframe e s with err | all_data
  · cases err
    rw [download_data_of_loop_error env basePath symbol timeframe s e hdl] at h
    cases h
  · rcases Classical.em (all_data = []) with hl | hl
    · subst hl
      rw [download_data_of_nil env basePath symbol timeframe s e hdl] at h
      have ho := Except.ok.inj h
      rw [← ho] at ht
      cases ht
    · rcases Classical.em ((dfConcat all_data).ncols = 12) with hc | hc
      · rw [download_data_of_ok env basePath symbol timeframe s e
          all_data hdl hl hc] at h
        have ho := Except.ok.inj h
        subst ho
        have htt := Option.some.inj ht
        subst htt
        exact ⟨rfl, ⟨all_data, rfl, rfl⟩, rfl⟩

      · rw [download_data_of_mismatch env basePath symbol timeframe s e
          all_data hdl hl hc] at h
        cases h

theorem c5_schema_witness :
    ({ colNames := dataColNames, rows := rows12idx } : IndexedDF).colNames
      = ["open", "high", "low", "close", "volume", "close_time",
         "quote_volume", "trades", "taker_buy_base", "taker_buy_quote",
         "ignore"] ∧
    ({ result := some { colNames := dataColNames, rows := rows12idx }
       written := some ("data/BTCUSDT_1h_2024-01-01_2024-01-01.csv",
         { header := "timestamp" :: dataColNames, body := rows12idx }) }
        : DownloadOutcome).written
      = some (outputPath "data" "BTCUSDT" "1h" date20240101 date20240101,
        { header := "timestamp"
            :: ({ colNames := dataColNames, rows := rows12idx }
              : IndexedDF).colNames
          body := ({ colNames := dataColNames, rows := rows12idx }
              : IndexedDF).rows }) := by
  have h := c5_schema envOk "data" "BTCUSDT" "1h" date20240101 date20240101
    _ _ download_data_envOk_eval rfl
  exact ⟨h.1, h.2.2⟩

/-- C6: `get_url(timeframe, symbol, dt)` is a pure total function of its
arguments (a plain Lean function, no side effects or failure modes): it
always returns
`<base>/<symbol>/<timeframe>/<symbol>-<timeframe>-<YYYY-MM-DD>.zip` with
the fixed configured base and the date zero-padded, and in particular on
`("1h", "BTCUSDT", 2024-01-01)` it yields exactly the expected URL. -/
theorem c6_get_url_template (timeframe symbol : String) (dt : Date) :
    get_url timeframe symbol dt
      = klineUrlBase ++ "/" ++ symbol ++ "/" ++ timeframe ++ "/" ++ symbol
          ++ "-" ++ timeframe ++ "-"
          ++ (zeroPad 4 dt.year ++ "-" ++ zeroPad 2 dt.month ++ "-"
              ++ zeroPad 2 dt.day)
          ++ ".zip" ∧
    get_url "1h" "BTCUSDT" date20240101
      = "https://data.binance.vision/data/spot/daily/klines/BTCUSDT/1h/BTCUSDT-1h-2024-01-01.zip" :=
  ⟨rfl, by decide⟩

/-- C7: Whenever `download_data` writes an output file, the path is
exactly `{base_path}/{symbol}_{timeframe}_{start_date}_{end_date}.csv`,
the strings verbatim and the dates in ISO form. -/
theorem c7_output_path (env : String → DayResult)
    (basePath symbol timeframe : String) (s e : Date)
    (o : DownloadOutcome) (p : String) (c : CsvContent)
    (h : download_data env basePath symbol timeframe s e = .ok o)
    (hw : o.written = some (p, c)) :
    p = basePath ++ "/" ++ symbol ++ "_" ++ timeframe ++ "_" ++ dateToIso s
      ++ "_" ++ dateToIso e ++ ".csv" := by
  rcases hdl : downloadLoop env symbol timeframe e s with err | all_data
  · cases err
    rw [download_data_of_loop_error env basePath symbol timeframe s e hdl] at h
    cases h
  · rcases Classical.em (all_data = []) with hl | hl
    · subst hl
      rw [download_data_of_nil env basePath symbol timeframe s e hdl] at h
      have ho := Except.ok.inj h
      rw [← ho] at hw
      cases hw
    · rcases Classical.em ((dfConcat all_data).ncols = 12) with hc | hc
      · rw [download_data_of_ok env basePath symbol timeframe s e
          all_data hdl hl hc] at h
        have ho := Except.ok.inj h
        subst ho
        have hpc := Option.some.inj hw
        have hp : outputPath basePath symbol timeframe s e = p :=
          congrArg Prod.fst hpc
        rw [← hp]
        rfl
      · rw [download_data_of_mismatch env basePath symbol timeframe s e
          all_data hdl hl hc] at h
        cases h

theorem c7_output_path_witness :
    "data/BTCUSDT_1h_2024-01-01_2024-01-01.csv"
      = "data" ++ "/" ++ "BTCUSDT" ++ "_" ++ "1h" ++ "_"
        ++ dateToIso date20240101 ++ "_" ++ dateToIso date20240101
        ++ ".csv" :=
  c7_output_path envOk "data" "BTCUSDT" "1h" date20240101 date20240101
    _ _ _ download_data_envOk_eval rfl

/-! ### Filesystem model for idempotence -/

/-- Writing one file: `to_csv` overwrites the file at the target path. -/
def writeFile (fs : String → Option CsvContent) (w : String × CsvContent) :
    String → Option CsvContent :=
  fun q => if q = w.1 then some w.2 else fs q

/-- Applying a call's file output to a filesystem state. -/
def applyOutcome (fs : String → Option CsvContent) (o : DownloadOutcome) :
    String → Option CsvContent :=
  match o.written with
  | none => fs
  | some w => writeFile fs w

/-- C8: `download_data` is idempotent in its observable output: against an
unchanged remote source (a fixed function from URL to response), two calls
with identical arguments produce the same output file at the same path —
the outcomes' `written` components are identical, and writing the file a
second time leaves the filesystem exactly as after the first write. -/
theorem c8_idempotent (env : String → DayResult)
    (basePath symbol timeframe : String) (s e : Date)
    (fs : String → Option CsvContent) (o1 o2 : DownloadOutcome)
    (h1 : download_data env basePath symbol timeframe s e = .ok o1)
    (h2 : download_data env basePath symbol timeframe s e = .ok o2) :
    o1.written = o2.written ∧
    applyOutcome (applyOutcome fs o1) o2 = applyOutcome fs o1 := by
  have ho : o1 = o2 := by
    rw [h1] at h2
    exact Except.ok.inj h2
  subst ho
  refine ⟨rfl, ?_⟩
  rcases hw : o1.written with _ | w
  · simp [applyOutcome, hw]
  · simp only [applyOutcome, hw]
    funext q
    unfold writeFile
    by_cases hq : q = w.1 <;> simp [hq]

/-- An initially empty filesystem. -/
def emptyFs : String → Option CsvContent := fun _ => none

theorem c8_idempotent_witness :
    applyOutcome
        (applyOutcome emptyFs
          { result := some { colNames := dataColNames, rows := rows12idx }
            written := some ("data/BTCUSDT_1h_2024-01-01_2024-01-01.csv",
              { header := "timestamp" :: dataColNames, body := rows12idx }) })
        { result := some { colNames := dataColNames, rows := rows12idx }
          written := some ("data/BTCUSDT_1h_2024-01-01_2024-01-01.csv",
            { header := "timestamp" :: dataColNames, body := rows12idx }) }
      = applyOutcome emptyFs
          { result := some { colNames := dataColNames, rows := rows12idx }
            written := some ("data/BTCUSDT_1h_2024-01-01_2024-01-01.csv",
              { header := "timestamp" :: dataColNames, body := rows12idx }) } :=
  (c8_idempotent envOk "data" "BTCUSDT" "1h" date20240101 date20240101
    emptyFs _ _ download_data_envOk_eval download_data_envOk_eval).2

/-- C10: The per-day skip-and-log handling does not cover column-count
mismatches: when the loop completes with a nonempty accumulator but the
concatenated frame's column count differs from 12, the post-loop
assignment of the 12 fixed column names raises an uncaught exception —
the whole call fails (`Except.error`): no file is written and no table is
returned, rather than the offending day being skipped. -/
theorem c10_column_mismatch (env : String → DayResult)
    (basePath symbol timeframe : String) (s e : Date) (all_data : List DF)
    (hok : downloadLoop env symbol timeframe e s = .ok all_data)
    (hne : all_data ≠ [])
    (hc : (dfConcat all_data).ncols ≠ 12) :
    download_data env basePath symbol timeframe s e = .error () :=
  download_data_of_mismatch env basePath symbol timeframe s e
    all_data hok hne hc

theorem c10_column_mismatch_witness :
    download_data envOk11 "data" "BTCUSDT" "1h" date20240101 date20240101
      = .error () := by
  have hok := downloadLoop_envOk11_eval
  have hne : ([df11] : List DF) ≠ [] := by simp
  have hc : (dfConcat [df11]).ncols ≠ 12 := by decide
  exact c10_column_mismatch envOk11 "data" "BTCUSDT" "1h"
    date20240101 date20240101 [df11] hok hne hc

end Merton
